import Mathlib

/-!
Shallow embedding of `src/review.py` (the drew2a/ai-review GitHub action).

The repository is a single Python script.  The parts the claims are about are
embedded here as executable Lean definitions:

* the model-adapter registry `supported_models` (header builders, body
  builders, response parsers) — the four families `^gpt-4`, `^o1`,
  `^claude-3`, `^gemini-2`;
* `get_model` — first-match dispatch over the pattern list;
* `help_llm` — the diff formatter, including the hunk-header regex
  `^@@ -\d+(?:,\d+)? \+(\d+)(?:,(\d+))? @@` modelled as a character parser;
* `extract_json` — `re.search(r'\x7b.*\x7d', text, re.S).group(0)`, including
  the `AttributeError` crash when the search finds no match;
* `publish_annotations` — modelled as a pure function that returns the list
  of observable side effects (stdout prints, GitHub comment deletions,
  comment creation, review creation) in the order the Python code performs
  them, together with a flag telling whether the run aborted with an
  uncaught exception.

External collaborators are modelled as inputs: `json.loads` is a parameter
`loads : String → Option JVal` (`none` = `json.JSONDecodeError`), and the
PR's existing issue comments are a `List Comment`.
-/

/-- JSON-like values, the result type of the modelled `json.loads` and the
payload type of the request-body builders. -/
inductive JVal where
  | null : JVal
  | bool (b : Bool) : JVal
  | num (n : Int) : JVal
  | str (s : String) : JVal
  | arr (xs : List JVal) : JVal
  | obj (fields : List (String × JVal)) : JVal

/-- Single-quote character (ASCII 39), used by Python `repr`/f-strings. -/
def squo : String := String.singleton (Char.ofNat 39)

/-- Left-brace character (ASCII 123). -/
def lbrace : Char := Char.ofNat 123

/-- Right-brace character (ASCII 125). -/
def rbrace : Char := Char.ofNat 125

mutual

/-- Python `repr` of a JSON value (best effort: container rendering follows
Python's `repr` layout; string escaping inside `repr` is not modelled, which
is irrelevant here because the claims only evaluate scalar values). -/
def pyRepr : JVal → String
  | .null => "None"
  | .bool true => "True"
  | .bool false => "False"
  | .num n => toString n
  | .str s => squo ++ s ++ squo
  | .arr xs => "[" ++ pyReprElems xs ++ "]"
  | .obj fs => String.singleton lbrace ++ pyReprFields fs ++ String.singleton rbrace

/-- Comma-separated `repr`s of list elements. -/
def pyReprElems : List JVal → String
  | [] => ""
  | [x] => pyRepr x
  | x :: y :: rest => pyRepr x ++ ", " ++ pyReprElems (y :: rest)

/-- Comma-separated `repr`s of dict entries. -/
def pyReprFields : List (String × JVal) → String
  | [] => ""
  | [kv] => squo ++ kv.1 ++ squo ++ ": " ++ pyRepr kv.2
  | kv :: kv2 :: rest => squo ++ kv.1 ++ squo ++ ": " ++ pyRepr kv.2 ++ ", " ++ pyReprFields (kv2 :: rest)

end

/-- Python `str()` of a JSON value, as used by f-string interpolation:
identical to `repr` except that a string is rendered without quotes. -/
def pyStr : JVal → String
  | .str s => s
  | v => pyRepr v

/-- First value bound to key `k` in an association list (Python dict lookup;
`json.loads` keeps keys unique, so first = only). -/
def lookupJ (fs : List (String × JVal)) (k : String) : Option JVal :=
  (fs.find? (fun kv => kv.1 == k)).map (fun kv => kv.2)

/-- Python `d.get(k)`: `.ok (some v)` / `.ok none` on a dict, and
`.error ()` (an `AttributeError`) on any non-dict value. -/
def pyGetOpt : JVal → String → Except Unit (Option JVal)
  | .obj fs, k => .ok (lookupJ fs k)
  | _, _ => .error ()

/-- Python iteration over a value: lists yield elements, strings yield
one-character strings, dicts yield their keys; other values raise
`TypeError` (`.error ()`). -/
def pyIter : JVal → Except Unit (List JVal)
  | .arr xs => .ok xs
  | .str s => .ok (s.data.map (fun c => .str (String.singleton c)))
  | .obj fs => .ok (fs.map (fun kv => .str kv.1))
  | _ => .error ()

/-- Python truthiness of a JSON value. -/
def jTruthy : JVal → Bool
  | .null => false
  | .bool b => b
  | .num n => n != 0
  | .str s => !s.data.isEmpty
  | .arr xs => !xs.isEmpty
  | .obj fs => !fs.isEmpty

/-! ## Python string primitives used by the script -/

/-- Characters stripped by Python `str.strip()` (the ASCII whitespace set;
the review text handled by the script is ASCII). -/
def pySpace (c : Char) : Bool :=
  c == ' ' || c == '\t' || c == '\n' || c == '\r' || c == '\x0b' || c == '\x0c'

/-- Python `str.strip()`. -/
def pytrim (s : String) : String :=
  String.mk (((s.data.dropWhile pySpace).reverse.dropWhile pySpace).reverse)

/-- Python `line.startswith(c)` for a one-character prefix. -/
def startsWithChar (c : Char) (s : String) : Bool :=
  s.data.head? == some c

/-- Substring search on character lists. -/
def listInfix (needle : List Char) : List Char → Bool
  | [] => needle.isEmpty
  | c :: rest => needle.isPrefixOf (c :: rest) || listInfix needle rest

/-- Python `needle in hay` on strings (substring containment). -/
def strContains (needle hay : String) : Bool :=
  listInfix needle.data hay.data

/-- Split `cs` at the first occurrence of `m` (Python `s.split(m, 1)` when
`m in s`): returns the part before and the part after, or `none` when `m`
does not occur. -/
def splitFirstSub (m : List Char) : List Char → Option (List Char × List Char)
  | [] => if m = [] then some ([], []) else none
  | c :: rest =>
    if m.isPrefixOf (c :: rest) then some ([], (c :: rest).drop m.length)
    else (splitFirstSub m rest).map (fun p => (c :: p.1, p.2))

/-- Python `str.splitlines()` (handles `\n`, `\r\n` and lone `\r`; no
trailing empty line). -/
def splitlinesAux : List Char → List Char → List (List Char)
  | [], acc => if acc.isEmpty then [] else [acc.reverse]
  | '\n' :: rest, acc => acc.reverse :: splitlinesAux rest []
  | '\r' :: '\n' :: rest, acc => acc.reverse :: splitlinesAux rest []
  | '\r' :: rest, acc => acc.reverse :: splitlinesAux rest []
  | c :: rest, acc => splitlinesAux rest (c :: acc)

/-- Python `str.splitlines()` on a `String`. -/
def splitlines (s : String) : List String :=
  (splitlinesAux s.data []).map String.mk

/-! ## Model adapter registry (`supported_models` in `review.py`)

The dict keys, in definition order, are the four family patterns; each entry
is a triple of functions (header builder, response parser, body builder).
-/

/-- The keys of `supported_models`, in definition order. -/
def supported_models : List String := ["^gpt-4", "^o1", "^claude-3", "^gemini-2"]

/-- `re.match(pat, name)` for the caret-anchored literal patterns of
`supported_models`: drop the `^` and test for a literal prefix (none of the
four patterns contains any other regex metacharacter). -/
def patternMatches (pat name : String) : Bool :=
  (pat.data.drop 1).isPrefixOf name.data

/-- Header builder of the `^gpt-4` family. -/
def gpt4_header (key version : String) : List (String × String) :=
  [("Authorization", "Bearer " ++ key),
   ("api-key", key),
   ("Api-Version", version),
   ("Content-Type", "application/json")]

/-- Header builder of the `^o1` family (same shape as `^gpt-4`). -/
def o1_header (key version : String) : List (String × String) :=
  [("Authorization", "Bearer " ++ key),
   ("api-key", key),
   ("Api-Version", version),
   ("Content-Type", "application/json")]

/-- Header builder of the `^claude-3` family. -/
def claude3_header (key version : String) : List (String × String) :=
  [("x-api-key", key),
   ("anthropic-version", version),
   ("Content-Type", "application/json")]

/-- Header builder of the `^gemini-2` family (ignores `version`). -/
def gemini2_header (key version : String) : List (String × String) :=
  [("x-goog-api-key", key),
   ("Content-Type", "application/json")]

/-- Dict lookup in a header mapping. -/
def lookupHdr (hs : List (String × String)) (k : String) : Option String :=
  (hs.find? (fun kv => kv.1 == k)).map (fun kv => kv.2)

/-- Body builder of the `^gpt-4` family. -/
def gpt4_prompt (model system_message user_message : String) : JVal :=
  .obj [("model", .str model),
        ("messages", .arr
          [.obj [("role", .str "system"), ("content", .str system_message)],
           .obj [("role", .str "user"), ("content", .str user_message)]])]

/-- Body builder of the `^o1` family (system prompt folded into a user
message). -/
def o1_prompt (model system_message user_message : String) : JVal :=
  .obj [("model", .str model),
        ("messages", .arr
          [.obj [("role", .str "user"), ("content", .str system_message)],
           .obj [("role", .str "user"), ("content", .str user_message)]])]

/-- Body builder of the `^claude-3` family. -/
def claude3_prompt (model system_message user_message : String) : JVal :=
  .obj [("model", .str model),
        ("system", .str system_message),
        ("max_tokens", .num 1024),
        ("messages", .arr [.obj [("role", .str "user"), ("content", .str user_message)]])]

/-- Body builder of the `^gemini-2` family.  Its `model` parameter is bound
but never used in the source lambda. -/
def gemini2_prompt (model system_message user_message : String) : JVal :=
  .obj [("system_instruction", .obj [("parts", .arr [.obj [("text", .str system_message)]])]),
        ("contents", .arr
          [.obj [("role", .str "user"),
                 ("parts", .arr [.obj [("text", .str user_message)]])]])]

/-- Top-level field of a JSON object (used to inspect request bodies). -/
def topField (v : JVal) (k : String) : Option JVal :=
  match v with
  | .obj fs => lookupJ fs k
  | _ => none

/-- Python `repr` of a list of strings, as interpolated by the f-string in
`get_model`'s error message (`list(supported_models.keys())`). -/
def pyListRepr (xs : List String) : String :=
  "[" ++ String.intercalate ", " (xs.map (fun s => squo ++ s ++ squo)) ++ "]"

/-- `get_model` from `review.py`: first pattern (in definition order) that
matches the model name, else a `ValueError` listing all patterns. -/
def get_model (name : String) : Except String String :=
  match supported_models.find? (fun p => patternMatches p name) with
  | some m => .ok m
  | none => .error ("Unsupported model pattern: " ++ name ++
      ". Supported patterns are: " ++ pyListRepr supported_models)

/-! ## Diff formatter (`help_llm` in `review.py`) -/

/-- `f"{n:4d}"`: decimal, right-aligned in a field of width 4. -/
def pad4 (n : Nat) : String :=
  let s := Nat.repr n
  if s.length < 4 then String.mk (List.replicate (4 - s.length) ' ') ++ s else s

/-- Consume a literal character sequence (regex literal part). -/
def stripLit (lit cs : List Char) : Option (List Char) :=
  if lit.isPrefixOf cs then some (cs.drop lit.length) else none

/-- Consume `\d+`: at least one ASCII digit, returning its value. -/
def parseDigits (cs : List Char) : Option (Nat × List Char) :=
  let ds := cs.takeWhile Char.isDigit
  if ds.isEmpty then none
  else some (ds.foldl (fun a c => a * 10 + (c.toNat - 48)) 0, cs.dropWhile Char.isDigit)

/-- Consume the optional group `(?:,\d+)?`. -/
def skipOptCommaDigits (cs : List Char) : List Char :=
  match cs with
  | ',' :: rest =>
    match parseDigits rest with
    | some p => p.2
    | none => cs
  | _ => cs

/-- The hunk-header regex `^@@ -\d+(?:,\d+)? \+(\d+)(?:,(\d+))? @@` of
`help_llm`, as used by `re.match` (anchored at the start, arbitrary trailing
text allowed): returns the first capture group (the new-file start line). -/
def parseHunkHeader (line : String) : Option Nat := do
  let cs1 ← stripLit "@@ -".data line.data
  let (_, cs2) ← parseDigits cs1
  let cs3 := skipOptCommaDigits cs2
  let cs4 ← stripLit " +".data cs3
  let (n, cs5) ← parseDigits cs4
  let cs6 := skipOptCommaDigits cs5
  let _ ← stripLit " @@".data cs6
  pure n

/-- One line starts with a space or a `+` (context or addition line). -/
def contentLine (l : String) : Bool :=
  startsWithChar ' ' l || startsWithChar '+' l

/-- The body loop of `help_llm`: walk the patch lines with the running
new-file line-number counter (`current_line_number`, `none` before any hunk
header has been seen). -/
def annotateLines (cur : Option Nat) : List String → List String
  | [] => []
  | line :: rest =>
    match parseHunkHeader line with
    | some start => line :: annotateLines (some start) rest
    | none =>
      if contentLine line then
        match cur with
        | some n => (pad4 n ++ ": " ++ line) :: annotateLines (some (n + 1)) rest
        | none => ("   ? : " ++ line) :: annotateLines none rest
      else if startsWithChar '-' line then
        ("      " ++ line) :: annotateLines cur rest
      else
        line :: annotateLines cur rest

/-- `help_llm` from `review.py` (the produced `output_lines` list; the
source returns their `"\n".join`). -/
def help_llm (filename patch : String) : List String :=
  ["\nFilename: " ++ filename, "Patch:", "```"]
    ++ annotateLines none (splitlines patch)
    ++ ["```"]

/-! ## JSON extraction (`extract_json` in `review.py`) -/

/-- Prefix of `cs` up to and including the last occurrence of `d`
(meaningful when `d ∈ cs`). -/
def takeToLast (d : Char) : List Char → List Char
  | [] => []
  | x :: rest => if d ∈ rest then x :: takeToLast d rest else [x]

/-- `re.search(r'\x7b.*\x7d', text, re.S)`: leftmost starting position at
which the pattern can match, with a greedy `.*` that extends to the last
`\x7d` of the text. -/
def reSearchBrace : List Char → Option (List Char)
  | [] => none
  | c :: rest =>
    if c = lbrace ∧ rbrace ∈ rest then some (c :: takeToLast rbrace rest)
    else reSearchBrace rest

/-- `extract_json` from `review.py`.  `none`/empty input is returned as is
(`if not text: return text`); otherwise the regex search runs and `.group(0)`
raises `AttributeError` (`.error ()`) when the search found nothing. -/
def extract_json : Option String → Except Unit (Option String)
  | none => .ok none
  | some t =>
    if t.data.isEmpty then .ok (some t)
    else
      match reSearchBrace t.data with
      | some cs => .ok (some (String.mk cs))
      | none => .error ()

/-- Modelled from the spec (for comparison only): the non-greedy variant
`\x7b.*?\x7d` the spec describes — the span stops at the first `\x7d` after
the opening brace. -/
def takeToFirst (d : Char) : List Char → List Char
  | [] => []
  | x :: rest => if x = d then [x] else x :: takeToFirst d rest

/-- Modelled from the spec (for comparison only): leftmost match of the
non-greedy pattern `\x7b.*?\x7d` claimed by the spec for the extraction
step. -/
def nonGreedySearchBrace : List Char → Option (List Char)
  | [] => none
  | c :: rest =>
    if c = lbrace ∧ rbrace ∈ rest then some (c :: takeToFirst rbrace rest)
    else nonGreedySearchBrace rest

/-! ## Response publisher (`publish_annotations` in `review.py`) -/

/-- Constant `GITHUB_ACTIONS_BOT` from `review.py`. -/
def GITHUB_ACTIONS_BOT : String := "github-actions[bot]"

/-- Constant `HEADER` from `review.py`. -/
def HEADER : String := "# AI Review"

/-- The literal marker splitting the LLM text. -/
def marker : String := "### TECHNICAL INFORMATION"

/-- A pre-existing PR issue comment (author login and body), an input of the
publisher. -/
structure Comment where
  login : String
  body : String

/-- Observable side effects of `publish_annotations`, in program order. -/
inductive Event where
  | printDebug (s : String) : Event
  | emitWarning (s : String) : Event
  | printLog (s : String) : Event
  | printLogin (s : String) : Event
  | deleteComment (login body : String) : Event
  | createComment (body : String) : Event
  | createReview (body resolution : JVal) : Event

/-- The marker split at the top of `publish_annotations`: with the marker
present, the part before is `.strip()`ped and the part after is `.strip()`ped
into the technical-blob candidate; with no marker the whole text is the
human summary (not stripped) and the blob is `None`. -/
def splitMarker (sc : String) : String × Option String :=
  match splitFirstSub marker.data sc.data with
  | some (pre, post) => (pytrim (String.mk pre), some (pytrim (String.mk post)))
  | none => (sc, none)

/-- `f"::warning file=<...>,line=<...>::<...>"` for one element of the
`annotations` array; missing keys read as `None` via `dict.get`. -/
def warnText (fs : List (String × JVal)) : String :=
  "::warning file=" ++ pyStr ((lookupJ fs "file").getD .null)
    ++ ",line=" ++ pyStr ((lookupJ fs "line").getD .null)
    ++ "::" ++ pyStr ((lookupJ fs "message").getD .null)

/-- The `for annotation in annotations` loop: each element must be a dict
(`annotation.get` raises `AttributeError` otherwise, which the surrounding
`except json.JSONDecodeError` does not catch → crash). -/
def processElems : List JVal → List Event × Bool
  | [] => ([], false)
  | e :: rest =>
    match e with
    | .obj fs =>
      let r := processElems rest
      (Event.emitWarning (warnText fs) :: r.1, r.2)
    | _ => ([], true)

/-- The first technical-information block of `publish_annotations` (lines
198–209 of `review.py`): runs when the extracted blob is truthy, parses it,
and prints one warning line per annotation; a `JSONDecodeError` is caught and
logged, any other exception crashes (`Bool` = crashed). -/
def annStage (loads : String → Option JVal) (t : Option String) : List Event × Bool :=
  match t with
  | none => ([], false)
  | some s =>
    if s.data.isEmpty then ([], false)
    else
      match loads s with
      | none => ([Event.printLog "Error parsing technical information JSON (annotations):"], false)
      | some tech =>
        match pyGetOpt tech "annotations" with
        | .error _ => ([], true)
        | .ok anns =>
          match pyIter (anns.getD (.arr [])) with
          | .error _ => ([], true)
          | .ok elems => processElems elems

/-- Should this pre-existing comment be deleted? (`HEADER in comment.body
and comment.user.login == GITHUB_ACTIONS_BOT`). -/
def shouldDelete (c : Comment) : Bool :=
  strContains HEADER c.body && (c.login == GITHUB_ACTIONS_BOT)

/-- The deletion loop of `publish_annotations`: print each comment author's
login, and delete the prior bot comments that carry the header. -/
def deleteStage : List Comment → List Event
  | [] => []
  | c :: rest =>
    Event.printLogin c.login ::
      ((if shouldDelete c then [Event.deleteComment c.login c.body] else [])
        ++ deleteStage rest)

/-- The comment-creation step of `publish_annotations`: posts
`f"{HEADER} \n\n{human_summary}"` (plus a model-version footer in debug
mode) when `human_summary` is truthy. -/
def createStage (human_summary : String) (debug : Bool) (llm_model : String) : List Event :=
  if human_summary.data.isEmpty then []
  else
    let comment := HEADER ++ " \n\n" ++ human_summary
    let comment := if debug then comment ++ "\n\n*Model version: " ++ llm_model ++ "*" else comment
    [Event.createComment comment]

/-- Is the resolution value one of the three accepted literals?
(`resolution not in ["APPROVE", "REQUEST_CHANGES", "COMMENT"]`). -/
def validResolution : JVal → Bool
  | .str s => s == "APPROVE" || s == "REQUEST_CHANGES" || s == "COMMENT"
  | _ => false

/-- The `print` text for a rejected resolution value
(`f"Unknown resolution '{resolution}' ..."`). -/
def unknownResolutionMsg (res : JVal) : String :=
  "Unknown resolution " ++ squo ++ pyStr res ++ squo ++ " in review JSON. Skipping PR review."

/-- The review block of `publish_annotations` (lines 231–244 of
`review.py`): reruns `json.loads` on the blob when the blob is truthy and
the `add_review_resolution` flag is set, reads the `review` object, and
submits a review only for a valid resolution; `JSONDecodeError` is caught
and logged, `AttributeError` from `.get` on a non-dict crashes. -/
def reviewStage (loads : String → Option JVal) (t : Option String)
    (add_review_resolution : Bool) : List Event × Bool :=
  match t with
  | none => ([], false)
  | some s =>
    if s.data.isEmpty || !add_review_resolution then ([], false)
    else
      match loads s with
      | none => ([Event.printLog "Error parsing technical information JSON (review):"], false)
      | some tech =>
        match pyGetOpt tech "review" with
        | .error _ => ([], true)
        | .ok none => ([], false)
        | .ok (some rv) =>
          if jTruthy rv then
            match pyGetOpt rv "resolution", pyGetOpt rv "review_message" with
            | .ok res?, .ok msg? =>
              if validResolution (res?.getD .null) then
                ([Event.createReview (msg?.getD (.str "")) (res?.getD .null)], false)
              else
                ([Event.printLog (unknownResolutionMsg (res?.getD .null))], false)
            | _, _ => ([], true)
          else ([], false)

/-- `publish_annotations` from `review.py`, as the ordered list of side
effects plus a crash flag.  `loads` models `json.loads`; `comments` models
the PR's existing issue comments returned by the GitHub API.  The uncaught
`AttributeError` raised by `extract_json` on a truthy blob with no brace
span aborts the run before any GitHub interaction. -/
def publish_annotations (loads : String → Option JVal) (summary_content : String)
    (comments : List Comment) (debug : Bool) (llm_model : String)
    (add_review_resolution : Bool) : List Event × Bool :=
  let dbg := if debug then [Event.printDebug summary_content] else []
  let split := splitMarker summary_content
  match extract_json split.2 with
  | .error _ => (dbg, true)
  | .ok technical_info_str =>
    let ann := annStage loads technical_info_str
    if ann.2 then (dbg ++ ann.1, true)
    else
      let rev := reviewStage loads technical_info_str add_review_resolution
      (dbg ++ ann.1 ++ deleteStage comments
        ++ createStage split.1 debug llm_model ++ rev.1, rev.2)

/-- The closed-form rendering of a patch line when no hunk header has been
seen yet (the counter is still `None`): placeholder marker for context and
addition lines, blank 6-space prefix for deletion lines, other lines
verbatim. -/
def noHunkRender (l : String) : String :=
  if contentLine l then "   ? : " ++ l
  else if startsWithChar '-' l then "      " ++ l
  else l

/-- The publishing phase of an event, per the spec's ordering claim:
warning prints (1) before comment deletions (2) before comment creation (3)
before review submission (4); log/login prints are unranked. -/
def phaseRank : Event → Option Nat
  | .emitWarning _ => some 1
  | .deleteComment _ _ => some 2
  | .createComment _ => some 3
  | .createReview _ _ => some 4
  | _ => none

/-! ## Theorems -/

/-- C3: for every model name matching one of the known family patterns,
`get_model` returns the first matching pattern in definition order (the head
of the definition-order filter); for every non-matching name it returns a
`ValueError` whose message lists every known pattern in definition order,
so no silent default adapter is ever used. -/
theorem C3_get_model_dispatch (name : String) :
    (∀ pat, get_model name = .ok pat ↔
      (supported_models.filter (fun p => patternMatches p name)).head? = some pat)
    ∧ ((∀ pat ∈ supported_models, patternMatches pat name = false) →
      get_model name = .error ("Unsupported model pattern: " ++ name ++
        ". Supported patterns are: " ++ pyListRepr supported_models)) := by
  constructor
  · intro pat
    cases h1 : patternMatches "^gpt-4" name <;>
    cases h2 : patternMatches "^o1" name <;>
    cases h3 : patternMatches "^claude-3" name <;>
    cases h4 : patternMatches "^gemini-2" name <;>
      simp [get_model, supported_models, List.find?, List.filter, h1, h2, h3, h4]
  · intro h
    have h1 := h "^gpt-4" (by simp [supported_models])
    have h2 := h "^o1" (by simp [supported_models])
    have h3 := h "^claude-3" (by simp [supported_models])
    have h4 := h "^gemini-2" (by simp [supported_models])
    simp [get_model, supported_models, List.find?, h1, h2, h3, h4]

/-- Witness for C3 at concrete model names: `gpt-4o` dispatches to the first
pattern, and an unknown name produces the full error message. -/
theorem C3_get_model_dispatch_witness :
    get_model "gpt-4o" = .ok "^gpt-4"
    ∧ get_model "unsupported-model" = .error ("Unsupported model pattern: " ++
        "unsupported-model" ++ ". Supported patterns are: " ++ pyListRepr supported_models) :=
  ⟨((C3_get_model_dispatch "gpt-4o").1 "^gpt-4").mpr (by decide),
   (C3_get_model_dispatch "unsupported-model").2 (by decide)⟩

/-- C5: each adapter's header builder is a pure function of `(key, version)`
returning exactly the listed keys: the `^gpt-4` family carries both
`Authorization: Bearer <key>` and `api-key: <key>`, while the `^claude-3`
and `^gemini-2` families carry no `Authorization` key at all. -/
theorem C5_header_builders (key version : String) :
    lookupHdr (gpt4_header key version) "Authorization" = some ("Bearer " ++ key)
    ∧ lookupHdr (gpt4_header key version) "api-key" = some key
    ∧ (gpt4_header key version).map Prod.fst
        = ["Authorization", "api-key", "Api-Version", "Content-Type"]
    ∧ lookupHdr (claude3_header key version) "Authorization" = none
    ∧ (claude3_header key version).map Prod.fst
        = ["x-api-key", "anthropic-version", "Content-Type"]
    ∧ lookupHdr (gemini2_header key version) "Authorization" = none
    ∧ (gemini2_header key version).map Prod.fst
        = ["x-goog-api-key", "Content-Type"] :=
  ⟨rfl, rfl, rfl, rfl, rfl, rfl, rfl⟩

/-- C9 (implicit): the `^gemini-2` body builder ignores its model-name
argument — the payload is identical for all model names and carries no
`model` field — while the other three families embed the model name in the
body. -/
theorem C9_gemini_prompt_ignores_model :
    (∀ m1 m2 s u, gemini2_prompt m1 s u = gemini2_prompt m2 s u)
    ∧ (∀ m s u, topField (gemini2_prompt m s u) "model" = none)
    ∧ (∀ m s u, topField (gpt4_prompt m s u) "model" = some (.str m)
        ∧ topField (o1_prompt m s u) "model" = some (.str m)
        ∧ topField (claude3_prompt m s u) "model" = some (.str m)) :=
  ⟨fun _ _ _ _ => rfl, fun _ _ _ => rfl, fun _ _ _ => ⟨rfl, rfl, rfl⟩⟩

/-- C10 (implicit): an element of the `annotations` array that lacks the
keys `file`, `line` and `message` is still printed, with the literal text
`None` substituted for each missing value, and processing continues with
the remaining elements instead of skipping or raising. -/
theorem C10_missing_keys_print_none (fs : List (String × JVal)) (rest : List JVal)
    (h1 : lookupJ fs "file" = none) (h2 : lookupJ fs "line" = none)
    (h3 : lookupJ fs "message" = none) :
    processElems (JVal.obj fs :: rest)
      = (Event.emitWarning "::warning file=None,line=None::None" :: (processElems rest).1,
         (processElems rest).2) := by
  rw [show processElems (JVal.obj fs :: rest)
      = (Event.emitWarning (warnText fs) :: (processElems rest).1, (processElems rest).2)
    from rfl]
  unfold warnText
  rw [h1, h2, h3]
  rfl

/-- Witness for C10: the empty annotation object prints the all-`None`
warning line without crashing. -/
theorem C10_missing_keys_print_none_witness :
    processElems [JVal.obj []]
      = ([Event.emitWarning "::warning file=None,line=None::None"], false) := by
  simpa [processElems] using C10_missing_keys_print_none [] [] rfl rfl rfl

/-- C1 (code bug): on an LLM response whose technical tail after the marker
contains no brace span at all, `extract_json` raises an uncaught
`AttributeError` (`.group(0)` on a failed `re.search`), so the whole
publisher aborts with an empty side-effect trace: no prior bot comment is
deleted and the human summary is never posted, for every `json.loads`
behaviour and every pre-existing comment list — contradicting the spec's
requirement that steps 4–5 still run. -/
theorem C1_braceless_tail_aborts_before_publishing
    (loads : String → Option JVal) (comments : List Comment) :
    publish_annotations loads
      "Looks good.\n### TECHNICAL INFORMATION\nnothing here"
      comments false "gpt-4o" true
      = ([], true) := rfl

/-- C2 counterexample: on a remainder holding two brace spans, the code's
greedy `re.search` span runs from the first brace to the LAST closing brace
(covering both objects), while the non-greedy first span the claim describes
stops at the first closing brace — and the two differ. -/
theorem C2_greedy_vs_nongreedy_counterexample :
    extract_json (some "\x7ba\x7d x \x7bb\x7d") = .ok (some "\x7ba\x7d x \x7bb\x7d")
    ∧ (nonGreedySearchBrace ("\x7ba\x7d x \x7bb\x7d" : String).data).map String.mk
        = some "\x7ba\x7d"
    ∧ ("\x7ba\x7d x \x7bb\x7d" : String) ≠ ("\x7ba\x7d" : String) :=
  ⟨rfl, rfl, by decide⟩

/-- `takeToLast` decomposition: when `d` occurs in `xs`, the result is the
prefix of `xs` through the last occurrence of `d`. -/
theorem takeToLast_decomp (d : Char) (xs : List Char) (h : d ∈ xs) :
    ∃ ys post, xs = (ys ++ [d]) ++ post ∧ d ∉ post ∧ takeToLast d xs = ys ++ [d] := by
  induction xs with
  | nil => cases h
  | cons x rest ih =>
    by_cases hm : d ∈ rest
    · obtain ⟨ys, post, hxs, hpost, htk⟩ := ih hm
      refine ⟨x :: ys, post, ?_, hpost, ?_⟩
      · simp only [List.cons_append, List.append_assoc] at hxs ⊢
        rw [← hxs]
      · simp [takeToLast, hm, htk]
    · have hx : x = d := by
        rcases List.mem_cons.mp h with h' | h'
        · exact h'.symm
        · exact absurd h' hm
      exact ⟨[], rest, by simp [hx], hm, by simp [takeToLast, hm, hx]⟩

/-- `reSearchBrace` decomposition: a successful search splits the text into
a prefix with no opening brace, the matched span (from an opening brace to
the last closing brace of the text), and a suffix with no closing brace. -/
theorem reSearchBrace_decomp (cs m : List Char) (h : reSearchBrace cs = some m) :
    ∃ pre mid post, cs = pre ++ (lbrace :: (mid ++ [rbrace])) ++ post
      ∧ m = lbrace :: (mid ++ [rbrace]) ∧ lbrace ∉ pre ∧ rbrace ∉ post := by
  induction cs with
  | nil => simp [reSearchBrace] at h
  | cons c rest ih =>
    rw [reSearchBrace] at h
    by_cases hc : c = lbrace ∧ rbrace ∈ rest
    · rw [if_pos hc] at h
      obtain ⟨hc1, hc2⟩ := hc
      obtain ⟨ys, post, hxs, hpost, htk⟩ := takeToLast_decomp rbrace rest hc2
      refine ⟨[], ys, post, ?_, ?_, by simp, hpost⟩
      · subst hc1
        simp only [List.nil_append, List.cons_append, List.append_assoc] at hxs ⊢
        rw [← hxs]
      · have hm : m = c :: takeToLast rbrace rest := by
          injection h with h'
          exact h'.symm
        rw [hm, htk, hc1]
    · rw [if_neg hc] at h
      obtain ⟨pre, mid, post, hcs, hm, hpre, hpost⟩ := ih h
      have hcne : c ≠ lbrace := by
        intro hceq
        exact hc ⟨hceq, by rw [hcs]; simp⟩
      refine ⟨c :: pre, mid, post, by rw [hcs]; simp, hm, ?_, hpost⟩
      simp only [List.mem_cons, not_or]
      exact ⟨fun he => hcne he.symm, hpre⟩

/-- C2 amended: for every non-empty technical blob, the span handed to the
JSON parser is the *greedy* outer brace match — it starts at the first
opening brace of the remainder (nothing before it contains an opening
brace) and runs to the LAST closing brace of the remainder (nothing after
it contains a closing brace) — not the non-greedy first `\x7b...\x7d` span. -/
theorem C2_greedy_outer_span (t s : String)
    (h : extract_json (some t) = .ok (some s)) (hne : t.data ≠ []) :
    ∃ pre mid post, t.data = pre ++ (lbrace :: (mid ++ [rbrace])) ++ post
      ∧ s.data = lbrace :: (mid ++ [rbrace]) ∧ lbrace ∉ pre ∧ rbrace ∉ post := by
  simp only [extract_json] at h
  rw [if_neg (by simpa using hne)] at h
  cases hr : reSearchBrace t.data with
  | none => rw [hr] at h; cases h
  | some m =>
    rw [hr] at h
    have hs : s = String.mk m := by
      injection h with h'
      injection h' with h''
      exact h''.symm
    obtain ⟨pre, mid, post, hcs, hm, hpre, hpost⟩ := reSearchBrace_decomp t.data m hr
    exact ⟨pre, mid, post, hcs, by rw [hs, ← hm], hpre, hpost⟩

/-- Witness for the amended C2 at a concrete remainder. -/
theorem C2_greedy_outer_span_witness :
    ∃ pre mid post,
      ("x \x7bab\x7d y" : String).data = pre ++ (lbrace :: (mid ++ [rbrace])) ++ post
      ∧ ("\x7bab\x7d" : String).data = lbrace :: (mid ++ [rbrace])
      ∧ lbrace ∉ pre ∧ rbrace ∉ post :=
  C2_greedy_outer_span "x \x7bab\x7d y" "\x7bab\x7d" rfl (by decide)

/-- Every event of the annotation-print loop is a warning print. -/
theorem processElems_events (elems : List JVal) :
    ∀ e ∈ (processElems elems).1, ∃ s, e = Event.emitWarning s := by
  induction elems with
  | nil => intro e he; simp [processElems] at he
  | cons x rest ih =>
    intro e he
    cases x <;> simp only [processElems] at he
    case obj fs =>
      rcases List.mem_cons.mp he with h | h
      · exact ⟨_, h⟩
      · exact ih e h
    all_goals simp at he

/-- Every event of the annotation stage is a warning print or a log print. -/
theorem annStage_events (loads : String → Option JVal) (t : Option String) :
    ∀ e ∈ (annStage loads t).1,
      (∃ s, e = Event.emitWarning s) ∨ (∃ s, e = Event.printLog s) := by
  intro e he
  unfold annStage at he
  repeat' split at he
  all_goals (try dsimp only at he)
  all_goals first
    | (exact absurd he (List.not_mem_nil e))
    | (rw [List.mem_singleton] at he; subst he; exact .inr ⟨_, rfl⟩)
    | (exact .inl (processElems_events _ e he))

/-- Every event of the deletion stage is a login print or a deletion. -/
theorem deleteStage_events (comments : List Comment) :
    ∀ e ∈ deleteStage comments,
      (∃ s, e = Event.printLogin s) ∨ (∃ l b, e = Event.deleteComment l b) := by
  induction comments with
  | nil => intro e he; simp [deleteStage] at he
  | cons c rest ih =>
    intro e he
    simp only [deleteStage] at he
    rcases List.mem_cons.mp he with h | h
    · exact .inl ⟨_, h⟩
    · rcases List.mem_append.mp h with h' | h'
      · split at h'
        · exact .inr ⟨_, _, List.mem_singleton.mp h'⟩
        · simp at h'
      · exact ih e h'

/-- Every event of the comment-creation stage is a comment creation. -/
theorem createStage_events (hs : String) (debug : Bool) (m : String) :
    ∀ e ∈ createStage hs debug m, ∃ b, e = Event.createComment b := by
  intro e he
  unfold createStage at he
  split at he
  · simp at he
  · exact ⟨_, List.mem_singleton.mp he⟩

/-- Every event of the review stage is a log print or a review creation. -/
theorem reviewStage_events (loads : String → Option JVal) (t : Option String)
    (addrev : Bool) :
    ∀ e ∈ (reviewStage loads t addrev).1,
      (∃ s, e = Event.printLog s) ∨ (∃ b r, e = Event.createReview b r) := by
  intro e he
  unfold reviewStage at he
  repeat' split at he
  all_goals (try dsimp only at he)
  all_goals first
    | (exact absurd he (List.not_mem_nil e))
    | (rw [List.mem_singleton] at he; subst he; exact .inl ⟨_, rfl⟩)
    | (rw [List.mem_singleton] at he; subst he; exact .inr ⟨_, _, rfl⟩)

/-- C7 counterexample: a whitespace-only response with no marker is empty
after trimming, yet the publisher still creates a summary comment (the
no-marker branch never strips, and the truthiness test sees the raw text) —
refuting "comment created iff the human summary is non-empty after
trimming". -/
theorem C7_whitespace_summary_counterexample :
    pytrim " " = ""
    ∧ publish_annotations (fun _ => none) " " [] false "gpt-4o" false
        = ([Event.createComment "# AI Review \n\n "], false) :=
  ⟨rfl, rfl⟩

/-- C7 amended: when the marker is present the human summary is the
pre-marker text whitespace-trimmed; when no marker is present it is the
whole text *untrimmed*; and (provided the technical-blob handling does not
crash first) the summary comment is created iff the human summary is a
non-empty string as-is — so a whitespace-only no-marker text still yields a
comment. -/
theorem C7_summary_comment_gate (loads : String → Option JVal) (sc : String)
    (comments : List Comment) (debug : Bool) (llm_model : String) (addrev : Bool)
    (t : Option String) (hex : extract_json (splitMarker sc).2 = .ok t)
    (hann : (annStage loads t).2 = false) :
    (splitFirstSub marker.data sc.data = none → (splitMarker sc).1 = sc)
    ∧ (∀ pre post, splitFirstSub marker.data sc.data = some (pre, post) →
        (splitMarker sc).1 = pytrim (String.mk pre))
    ∧ ((∃ b, Event.createComment b
          ∈ (publish_annotations loads sc comments debug llm_model addrev).1)
        ↔ (splitMarker sc).1.data ≠ []) := by
  refine ⟨?_, ?_, ?_⟩
  · intro h
    unfold splitMarker
    rw [h]
  · intro pre post h
    unfold splitMarker
    rw [h]
  · unfold publish_annotations
    dsimp only
    rw [hex]
    try dsimp only
    rw [hann, if_neg Bool.false_ne_true]
    try dsimp only
    constructor
    · rintro ⟨b, hb⟩
      by_contra hnil
      try rw [ne_eq, not_not] at hnil
      have hcr : createStage (splitMarker sc).1 debug llm_model = [] := by
        unfold createStage
        rw [if_pos (by rw [hnil]; rfl)]
      rw [hcr] at hb
      simp only [List.mem_append, List.append_nil, List.not_mem_nil, or_false] at hb
      rcases hb with ((hb | hb) | hb) | hb
      · rcases debug with _ | _ <;> simp at hb
      · rcases annStage_events loads t _ hb with ⟨s, h'⟩ | ⟨s, h'⟩ <;> cases h'
      · rcases deleteStage_events comments _ hb with ⟨s, h'⟩ | ⟨l, b2, h'⟩ <;> cases h'
      · rcases reviewStage_events loads t addrev _ hb with ⟨s, h'⟩ | ⟨b2, r, h'⟩ <;> cases h'
    · intro hne
      have hcr : ∃ c, createStage (splitMarker sc).1 debug llm_model
          = [Event.createComment c] := by
        unfold createStage
        rw [if_neg (by simpa using hne)]
        exact ⟨_, rfl⟩
      obtain ⟨c, hcr⟩ := hcr
      exact ⟨c, by simp [hcr, List.mem_append]⟩

/-- Witness for the amended C7: a plain non-empty response yields a summary
comment. -/
theorem C7_summary_comment_gate_witness :
    ∃ b, Event.createComment b
      ∈ (publish_annotations (fun _ => none) "hello" [] false "gpt-4o" false).1 :=
  (C7_summary_comment_gate (fun _ => none) "hello" [] false "gpt-4o" false
    none rfl rfl).2.2.mpr (by decide)

/-- Ranks collected from a block whose events all rank `none` or `some a`
are all `a`. -/
theorem filterMap_rank_const {l : List Event} {a : Nat}
    (h : ∀ e ∈ l, phaseRank e = none ∨ phaseRank e = some a) :
    ∀ x ∈ l.filterMap phaseRank, x = a := by
  intro x hx
  obtain ⟨e, he, hfe⟩ := List.mem_filterMap.mp hx
  rcases h e he with h' | h'
  · rw [h'] at hfe
    cases hfe
  · rw [h'] at hfe
    injection hfe with h''
    exact h''.symm

/-- A constant list of naturals is sorted. -/
theorem pairwise_le_const {l : List Nat} {a : Nat} (h : ∀ x ∈ l, x = a) :
    l.Pairwise (· ≤ ·) := by
  induction l with
  | nil => exact List.Pairwise.nil
  | cons x rest ih =>
    refine List.Pairwise.cons ?_ (ih (fun y hy => h y (List.mem_cons_of_mem x hy)))
    intro y hy
    rw [h x (List.mem_cons_self x rest), h y (List.mem_cons_of_mem x hy)]

/-- Ranks of a five-block trace (debug prints, then warnings, then
deletions, then creation, then review) are sorted. -/
theorem ranks_sorted (l1 l2 l3 l4 l5 : List Event)
    (h1 : ∀ e ∈ l1, phaseRank e = none)
    (h2 : ∀ e ∈ l2, phaseRank e = none ∨ phaseRank e = some 1)
    (h3 : ∀ e ∈ l3, phaseRank e = none ∨ phaseRank e = some 2)
    (h4 : ∀ e ∈ l4, phaseRank e = none ∨ phaseRank e = some 3)
    (h5 : ∀ e ∈ l5, phaseRank e = none ∨ phaseRank e = some 4) :
    ((l1 ++ l2 ++ l3 ++ l4 ++ l5).filterMap phaseRank).Pairwise (· ≤ ·) := by
  have g2 := filterMap_rank_const h2
  have g3 := filterMap_rank_const h3
  have g4 := filterMap_rank_const h4
  have g5 := filterMap_rank_const h5
  rw [List.filterMap_append, List.filterMap_append, List.filterMap_append,
    List.filterMap_append, List.filterMap_eq_nil_iff.mpr h1, List.nil_append]
  refine List.pairwise_append.mpr ⟨?_, pairwise_le_const g5, ?_⟩
  · refine List.pairwise_append.mpr ⟨?_, pairwise_le_const g4, ?_⟩
    · refine List.pairwise_append.mpr ⟨pairwise_le_const g2, pairwise_le_const g3, ?_⟩
      intro x hx y hy
      rw [g2 x hx, g3 y hy]
      exact Nat.le_succ 1
    · intro x hx y hy
      rcases List.mem_append.mp hx with hx' | hx'
      · rw [g2 x hx', g4 y hy]
        omega
      · rw [g3 x hx', g4 y hy]
        omega
  · intro x hx y hy
    rcases List.mem_append.mp hx with hx' | hx'
    · rcases List.mem_append.mp hx' with hx'' | hx''
      · rw [g2 x hx'', g5 y hy]
        omega
      · rw [g3 x hx'', g5 y hy]
        omega
    · rw [g4 x hx', g5 y hy]
      omega

/-- C8: in every execution of the publisher, the ranked side effects appear
in non-decreasing phase order — every annotation warning print precedes
every prior-comment deletion, every deletion precedes the summary-comment
creation, and the creation precedes any review submission. -/
theorem C8_side_effect_order (loads : String → Option JVal) (sc : String)
    (comments : List Comment) (debug : Bool) (llm_model : String) (addrev : Bool) :
    ((publish_annotations loads sc comments debug llm_model addrev).1.filterMap
      phaseRank).Pairwise (· ≤ ·) := by
  have hdbg : ∀ e ∈ (if debug then [Event.printDebug sc] else []), phaseRank e = none := by
    rcases debug with _ | _ <;> simp [phaseRank]
  unfold publish_annotations
  dsimp only
  cases hex : extract_json (splitMarker sc).2 with
  | error u =>
    rw [List.filterMap_eq_nil_iff.mpr hdbg]
    exact List.Pairwise.nil
  | ok t =>
    dsimp only
    have a2 : ∀ e ∈ (annStage loads t).1, phaseRank e = none ∨ phaseRank e = some 1 := by
      intro e he
      rcases annStage_events loads t e he with ⟨s, h'⟩ | ⟨s, h'⟩ <;> subst h' <;> simp [phaseRank]
    have a3 : ∀ e ∈ deleteStage comments, phaseRank e = none ∨ phaseRank e = some 2 := by
      intro e he
      rcases deleteStage_events comments e he with ⟨s, h'⟩ | ⟨l, b, h'⟩ <;> subst h' <;> simp [phaseRank]
    have a4 : ∀ e ∈ createStage (splitMarker sc).1 debug llm_model,
        phaseRank e = none ∨ phaseRank e = some 3 := by
      intro e he
      obtain ⟨b, h'⟩ := createStage_events (splitMarker sc).1 debug llm_model e he
      subst h'
      simp [phaseRank]
    have a5 : ∀ e ∈ (reviewStage loads t addrev).1,
        phaseRank e = none ∨ phaseRank e = some 4 := by
      intro e he
      rcases reviewStage_events loads t addrev e he with ⟨s, h'⟩ | ⟨b, r, h'⟩ <;> subst h' <;>
        simp [phaseRank]
    cases hc : (annStage loads t).2 with
    | true =>
      rw [if_pos rfl]
      have := ranks_sorted (if debug then [Event.printDebug sc] else [])
        (annStage loads t).1 [] [] [] hdbg a2 (by simp) (by simp) (by simp)
      simpa using this
    | false =>
      rw [if_neg Bool.false_ne_true]
      exact ranks_sorted _ _ _ _ _ hdbg a2 a3 a4 a5

/-- C6: with a parsed technical blob (non-empty, `loads` succeeds on it
with an object whose `review` field is a non-empty object) and the
`add_review_resolution` flag enabled, a PR review is submitted iff the
`resolution` value is exactly one of `APPROVE`, `REQUEST_CHANGES`,
`COMMENT` (the `review_message` defaulting to the empty string); any other
resolution is logged with the skip message and the stage ends without
crash, so the run and the already-performed comment posting are not
aborted. -/
theorem C6_review_resolution_gate (loads : String → Option JVal) (s : String)
    (tf fs : List (String × JVal)) (hs : s.data ≠ [])
    (hload : loads s = some (.obj tf))
    (hrv : lookupJ tf "review" = some (.obj fs)) (hfs : fs ≠ []) :
    (validResolution ((lookupJ fs "resolution").getD .null) = true →
      reviewStage loads (some s) true
        = ([Event.createReview ((lookupJ fs "review_message").getD (.str ""))
            ((lookupJ fs "resolution").getD .null)], false))
    ∧ (validResolution ((lookupJ fs "resolution").getD .null) = false →
      reviewStage loads (some s) true
        = ([Event.printLog (unknownResolutionMsg ((lookupJ fs "resolution").getD .null))],
           false))
    ∧ ((∃ b r, Event.createReview b r ∈ (reviewStage loads (some s) true).1)
        ↔ validResolution ((lookupJ fs "resolution").getD .null) = true)
    ∧ (validResolution ((lookupJ fs "resolution").getD .null) = true
        ↔ ((lookupJ fs "resolution").getD .null = .str "APPROVE"
          ∨ (lookupJ fs "resolution").getD .null = .str "REQUEST_CHANGES"
          ∨ (lookupJ fs "resolution").getD .null = .str "COMMENT")) := by
  have hred : reviewStage loads (some s) true
      = (if validResolution ((lookupJ fs "resolution").getD .null) then
          ([Event.createReview ((lookupJ fs "review_message").getD (.str ""))
            ((lookupJ fs "resolution").getD .null)], false)
        else
          ([Event.printLog (unknownResolutionMsg ((lookupJ fs "resolution").getD .null))],
           false)) := by
    unfold reviewStage
    dsimp only
    rw [if_neg (show ¬((s.data.isEmpty || !true) = true) by
      simp [List.isEmpty_iff, hs])]
    rw [hload]
    dsimp only [pyGetOpt]
    rw [hrv]
    dsimp only
    rw [if_pos (show jTruthy (JVal.obj fs) = true by
      simp [jTruthy, List.isEmpty_iff, hfs])]
  refine ⟨?_, ?_, ?_, ?_⟩
  · intro hv
    rw [hred, if_pos hv]
  · intro hv
    rw [hred, if_neg (by rw [hv]; exact Bool.false_ne_true)]
  · rw [hred]
    cases hv : validResolution ((lookupJ fs "resolution").getD .null) with
    | true =>
      rw [if_pos rfl]
      exact ⟨fun _ => rfl, fun _ => ⟨_, _, List.mem_singleton.mpr rfl⟩⟩
    | false =>
      rw [if_neg Bool.false_ne_true]
      simp
  · cases hres : (lookupJ fs "resolution").getD .null <;>
      simp [validResolution, or_assoc]

/-- Witness for C6 at a concrete parsed blob with resolution `APPROVE`:
the review is submitted with the default empty message. -/
theorem C6_review_resolution_gate_witness :
    reviewStage
      (fun s => if s == "X" then some (.obj [("review", .obj [("resolution", .str "APPROVE")])])
        else none)
      (some "X") true
      = ([Event.createReview (JVal.str "") (JVal.str "APPROVE")], false) :=
  (C6_review_resolution_gate
    (fun s => if s == "X" then some (.obj [("review", .obj [("resolution", .str "APPROVE")])])
      else none)
    "X" [("review", .obj [("resolution", .str "APPROVE")])] [("resolution", .str "APPROVE")]
    (by decide) rfl rfl (by simp)).1 rfl

/-- A line whose first character is not `@` cannot match the hunk-header
regex. -/
theorem parseHunkHeader_none_of_head (l : String) (c : Char)
    (hc : startsWithChar c l = true) (hne : c ≠ '@') :
    parseHunkHeader l = none := by
  have hh : l.data.head? = some c := by
    simpa [startsWithChar] using hc
  have hstrip : stripLit "@@ -".data l.data = none := by
    cases hd : l.data with
    | nil =>
      rw [hd] at hh
      cases hh
    | cons d tl =>
      rw [hd] at hh
      have hdc : d = c := by
        simpa using hh
      have hne2 : (('@' : Char) == d) = false := by
        rw [hdc]
        exact beq_eq_false_iff_ne.mpr (fun hcontr => hne hcontr.symm)
      rw [show ("@@ -".data) = ['@', '@', ' ', '-'] from rfl]
      unfold stripLit
      rw [if_neg]
      simp [List.isPrefixOf, hne2]
  unfold parseHunkHeader
  rw [hstrip]
  rfl

/-- Stepping over a hunk-header line reseeds the counter. -/
theorem annotate_hunk (cur : Option Nat) (line : String) (rest : List String) (k : Nat)
    (h : parseHunkHeader line = some k) :
    annotateLines cur (line :: rest) = line :: annotateLines (some k) rest := by
  simp only [annotateLines]
  rw [h]

/-- Stepping over a context/addition line with a live counter emits the
4-digit right-aligned number and increments. -/
theorem annotate_content_some (n : Nat) (line : String) (rest : List String)
    (h : contentLine line = true) :
    annotateLines (some n) (line :: rest)
      = (pad4 n ++ ": " ++ line) :: annotateLines (some (n + 1)) rest := by
  have hp : parseHunkHeader line = none := by
    rcases (show startsWithChar ' ' line = true ∨ startsWithChar '+' line = true by
        simpa [contentLine] using h) with h' | h'
    · exact parseHunkHeader_none_of_head line ' ' h' (by decide)
    · exact parseHunkHeader_none_of_head line '+' h' (by decide)
  simp only [annotateLines]
  rw [hp, if_pos h]

/-- Stepping over a context/addition line before any hunk header emits the
placeholder marker. -/
theorem annotate_content_none (line : String) (rest : List String)
    (h : contentLine line = true) :
    annotateLines none (line :: rest) = ("   ? : " ++ line) :: annotateLines none rest := by
  have hp : parseHunkHeader line = none := by
    rcases (show startsWithChar ' ' line = true ∨ startsWithChar '+' line = true by
        simpa [contentLine] using h) with h' | h'
    · exact parseHunkHeader_none_of_head line ' ' h' (by decide)
    · exact parseHunkHeader_none_of_head line '+' h' (by decide)
  simp only [annotateLines]
  rw [hp, if_pos h]

/-- Stepping over a deletion line emits the 6-space blank prefix and keeps
the counter unchanged, for every counter state. -/
theorem annotate_deletion (cur : Option Nat) (line : String) (rest : List String)
    (h : startsWithChar '-' line = true) :
    annotateLines cur (line :: rest) = ("      " ++ line) :: annotateLines cur rest := by
  have hh : line.data.head? = some '-' := by
    simpa [startsWithChar] using h
  have hp : parseHunkHeader line = none :=
    parseHunkHeader_none_of_head line '-' h (by decide)
  have hcl : contentLine line = false := by
    unfold contentLine startsWithChar
    rw [hh]
    rfl
  simp only [annotateLines]
  rw [hp, hcl, if_neg Bool.false_ne_true, if_pos h]

/-- Stepping over any other line (no hunk header, not content, not a
deletion) passes it through unchanged. -/
theorem annotate_other (cur : Option Nat) (line : String) (rest : List String)
    (hp : parseHunkHeader line = none) (hcl : contentLine line = false)
    (hdel : startsWithChar '-' line = false) :
    annotateLines cur (line :: rest) = line :: annotateLines cur rest := by
  simp only [annotateLines]
  rw [hp, hcl, hdel, if_neg Bool.false_ne_true, if_neg Bool.false_ne_true]

/-- With no hunk header anywhere in the patch, the whole walk is the
pointwise `noHunkRender` map: placeholder markers on content lines, blank
prefixes on deletions, everything else verbatim. -/
theorem annotate_no_hunk (lines : List String)
    (h : ∀ l ∈ lines, parseHunkHeader l = none) :
    annotateLines none lines = lines.map noHunkRender := by
  induction lines with
  | nil => rfl
  | cons l rest ih =>
    have hl := h l (List.mem_cons_self l rest)
    have hrest := fun x hx => h x (List.mem_cons_of_mem l hx)
    cases hcl : contentLine l with
    | true =>
      rw [annotate_content_none l rest hcl, ih hrest]
      simp [noHunkRender, hcl]
    | false =>
      cases hdel : startsWithChar '-' l with
      | true =>
        rw [annotate_deletion none l rest hdel, ih hrest]
        simp [noHunkRender, hcl, hdel]
      | false =>
        rw [annotate_other none l rest hl hcl hdel, ih hrest]
        simp [noHunkRender, hcl, hdel]

/-- C4: after the hunk header `@@ -10,3 +20,3 @@`, three context/addition
lines receive the new-file numbers 20, 21, 22; deletion lines never receive
a number (they get the 6-space blank prefix) under every counter state; a
patch with no hunk header renders every content line with the placeholder
marker (and crashes nowhere); and the full formatter output on the concrete
example patch. -/
theorem C4_diff_formatter :
    (∀ l1 l2 l3 rest, contentLine l1 = true → contentLine l2 = true →
      contentLine l3 = true →
      annotateLines none ("@@ -10,3 +20,3 @@" :: l1 :: l2 :: l3 :: rest)
        = "@@ -10,3 +20,3 @@" :: ("  20: " ++ l1) :: ("  21: " ++ l2)
          :: ("  22: " ++ l3) :: annotateLines (some 23) rest)
    ∧ (∀ cur line rest, startsWithChar '-' line = true →
      annotateLines cur (line :: rest) = ("      " ++ line) :: annotateLines cur rest)
    ∧ (∀ lines, (∀ l ∈ lines, parseHunkHeader l = none) →
      annotateLines none lines = lines.map noHunkRender)
    ∧ help_llm "a.py" "@@ -10,3 +20,3 @@\n x\n+y\n z"
      = ["\nFilename: a.py", "Patch:", "```", "@@ -10,3 +20,3 @@",
         "  20:  x", "  21: +y", "  22:  z", "```"] := by
  refine ⟨?_, annotate_deletion, annotate_no_hunk, rfl⟩
  intro l1 l2 l3 rest h1 h2 h3
  rw [annotate_hunk none "@@ -10,3 +20,3 @@" (l1 :: l2 :: l3 :: rest) 20 rfl,
    annotate_content_some 20 l1 _ h1,
    annotate_content_some 21 l2 _ h2, annotate_content_some 22 l3 _ h3]
  rfl

/-- Witness for C4 at concrete lines. -/
theorem C4_diff_formatter_witness :
    annotateLines none ["@@ -10,3 +20,3 @@", " a", "+b", " c"]
      = ["@@ -10,3 +20,3 @@", "  20:  a", "  21: +b", "  22:  c"]
    ∧ annotateLines (some 5) ["-x"] = ["      -x"]
    ∧ annotateLines none ["+q"] = ["   ? : +q"] := by
  refine ⟨?_, ?_, ?_⟩
  · exact (C4_diff_formatter.1 " a" "+b" " c" [] rfl rfl rfl).trans rfl
  · exact (C4_diff_formatter.2.1 (some 5) "-x" [] rfl).trans rfl
  · refine (C4_diff_formatter.2.2.1 ["+q"] ?_).trans rfl
    intro l hl
    rw [List.mem_singleton] at hl
    subst hl
    rfl
